import Mathlib

/-!
# Verification of the yamlconf configuration manager

Shallow embedding of `yamlconf.go` and its disk-synchronization file
(`loadFromDisk` / `reloadFromDisk` / `saveToDiskAndUpdate` / `writeToDisk` /
`hasChangedOnDisk`, plus the delta branch of `processUpdates` and the
load-or-save sequence of `Start`).

Modelling conventions:
* The Go `Config` interface (`GetVersion` / `SetVersion` / `ApplyDefaults`)
  becomes a record of pure operations `ConfigOps` over an abstract type `C`;
  Go's in-place mutation becomes explicit state passing.
* `reflect.DeepEqual` on two `Config` interface values becomes decidable
  equality on `Option C` (a `nil` interface is `none`).
* `os.FileInfo` values returned by `os.Stat` are heap-allocated; Go's `==`
  on two such interface values compares pointers.  We model a file info as a
  record carrying the stat data (name, size, modTime) plus an allocation
  identity `ident`; Go's `==` is equality of the whole record, and distinct
  `os.Stat` calls return records with distinct `ident`s.
* External calls (stat, read, write, yaml marshal/unmarshal, deepcopy) are
  oracles supplied through environment records; the on-disk file contents are
  threaded explicitly as `Option B` (`none` = no file).
* Errors are an inductive carrying the data the Go code formats into the
  error string.
-/

/-- Model of an `os.FileInfo` as returned by `os.Stat`: the stat data plus an
allocation identity (`ident`), so that record equality coincides with Go's
`==` on the two interface values (pointer comparison). -/
structure FileInfo where
  name : String
  size : Int
  modTime : Int
  ident : Nat
deriving DecidableEq, Repr

/-- Errors produced by the manager, carrying the data the Go code formats
into `fmt.Errorf` strings. -/
inductive Err where
  | stat (msg : String)
  | read (msg : String)
  | unmarshal (msg : String)
  | versionMismatch (expected found : Int)
  | marshal (msg : String)
  | write (msg : String)
  | statAfterWrite (msg : String)
  | copyFail (msg : String)
  | deltaFail (msg : String)
  | initialUpdate (inner : Err)
deriving DecidableEq, Repr

/-- The capability contract of the Go `Config` interface: an integer version
with get/set, and a defaulting operation. -/
structure ConfigOps (C : Type) where
  getVersion : C → Int
  setVersion : Int → C → C
  applyDefaults : C → C

/-- Laws the `Config` contract is expected to satisfy (version get/set acts
like a field). -/
structure ConfigLaws {C : Type} (ops : ConfigOps C) : Prop where
  get_set : ∀ v c, ops.getVersion (ops.setVersion v c) = v
  set_set : ∀ v w c, ops.setVersion v (ops.setVersion w c) = ops.setVersion v c
  set_get : ∀ c, ops.setVersion (ops.getVersion c) c = c

/-- The YAML codec (external collaborator): marshal and unmarshal, each
fallible. `unmarshal` fills a fresh `EmptyConfig()` instance from bytes. -/
structure Codec (C B : Type) where
  marshal : C → Except String B
  unmarshal : B → Except String C

/-- The mutable fields of the Go `Manager` that the disk-synchronization
protocol touches: the authoritative config (`nil` = `none`) and the last
remembered `os.FileInfo`. -/
structure Manager (C : Type) where
  cfg : Option C
  fileInfo : Option FileInfo
deriving DecidableEq, Repr

/-- The version the manager currently considers authoritative, treating a
missing configuration as version 0 (this is the `currentVersion` computation
of `saveToDiskAndUpdate`). -/
def currentVersionOf {C : Type} (ops : ConfigOps C) (m : Manager C) : Int :=
  match m.cfg with
  | some c => ops.getVersion c
  | none => 0

/-- Oracle outcomes for one `writeToDisk` call: whether `ioutil.WriteFile`
fails, and the result of the `os.Stat` performed after a successful write. -/
structure WriteEnv where
  writeResult : Option String
  statAfter : Except String FileInfo

/-- Result of `writeToDisk`: the returned error (if any), the manager state
(`m.fileInfo` may be updated), and the file contents on disk. -/
structure WriteOutcome (C B : Type) where
  error : Option Err
  mgr : Manager C
  disk : Option B
deriving DecidableEq, Repr

/-- Embedding of `Manager.writeToDisk`: marshal the config, write the bytes
to the file, then re-stat the file to capture a fresh fingerprint.  On a
failed marshal or write nothing changes; if the write succeeds the disk holds
the new bytes even when the trailing stat fails (in which case `m.fileInfo`
is the zero value of the assignment, i.e. `none`, and an error is returned
although the file was written). -/
def writeToDisk {C B : Type} (codec : Codec C B) (env : WriteEnv)
    (m : Manager C) (disk : Option B) (cfg : C) : WriteOutcome C B :=
  match codec.marshal cfg with
  | .error msg => ⟨some (.marshal msg), m, disk⟩
  | .ok bs =>
    match env.writeResult with
    | some msg => ⟨some (.write msg), m, disk⟩
    | none =>
      match env.statAfter with
      | .error msg => ⟨some (.statAfterWrite msg), { m with fileInfo := none }, some bs⟩
      | .ok fi => ⟨none, { m with fileInfo := some fi }, some bs⟩

/-- Oracle outcomes for one `reloadFromDisk` call: the initial `os.Stat`,
the `ioutil.ReadFile` result, and the write environment used by the
version-mismatch overwrite. -/
structure ReloadEnv (B : Type) where
  statResult : Except String FileInfo
  readResult : Except String B
  write : WriteEnv

/-- Result of `reloadFromDisk`: the returned `(bool, error)` pair plus the
updated manager state and disk contents. -/
structure ReloadOutcome (C B : Type) where
  changed : Bool
  error : Option Err
  mgr : Manager C
  disk : Option B
deriving DecidableEq, Repr

/-- Embedding of `Manager.reloadFromDisk`: stat the file; short-circuit when
the freshly returned `os.FileInfo` interface value equals the remembered one
(Go `==`, i.e. full record equality including the allocation identity); read
and unmarshal; reject on version mismatch, overwriting disk with the
in-memory config (ignoring that write's error); suppress when deep-equal to
the in-memory config; otherwise commit the decoded config and fingerprint. -/
def reloadFromDisk {C B : Type} [DecidableEq C] (ops : ConfigOps C)
    (codec : Codec C B) (env : ReloadEnv B) (m : Manager C) (disk : Option B) :
    ReloadOutcome C B :=
  match env.statResult with
  | .error msg => ⟨false, some (.stat msg), m, disk⟩
  | .ok fileInfo =>
    if m.fileInfo = some fileInfo then
      ⟨false, none, m, disk⟩
    else
      match env.readResult with
      | .error msg => ⟨false, some (.read msg), m, disk⟩
      | .ok bs =>
        match codec.unmarshal bs with
        | .error msg => ⟨false, some (.unmarshal msg), m, disk⟩
        | .ok cfg =>
          match m.cfg with
          | some mc =>
            if ops.getVersion mc ≠ ops.getVersion cfg then
              let w := writeToDisk codec env.write m disk mc
              ⟨false, some (.versionMismatch (ops.getVersion mc) (ops.getVersion cfg)),
                w.mgr, w.disk⟩
            else if mc = cfg then
              ⟨false, none, m, disk⟩
            else
              ⟨true, none, { m with cfg := some cfg, fileInfo := some fileInfo }, disk⟩
          | none =>
            ⟨true, none, { m with cfg := some cfg, fileInfo := some fileInfo }, disk⟩

/-- Result of `saveToDiskAndUpdate`: the returned `(bool, error)` pair, the
updated manager state, the final state of the candidate object (Go mutates
`updated` in place, so its final value is observable to the caller), and the
disk contents. -/
structure SaveOutcome (C B : Type) where
  changed : Bool
  error : Option Err
  mgr : Manager C
  candidate : C
  disk : Option B
deriving DecidableEq, Repr

/-- Embedding of `Manager.saveToDiskAndUpdate`: apply defaults to the
candidate; remember the current version and zero the authoritative config's
version; zero the candidate's version and deep-compare; if equal, restore the
authoritative version (only) and report no change; otherwise set the
candidate's version to current+1, write it to disk, and on success make it
authoritative. -/
def saveToDiskAndUpdate {C B : Type} [DecidableEq C] (ops : ConfigOps C)
    (codec : Codec C B) (wenv : WriteEnv) (m : Manager C) (disk : Option B)
    (updated : C) : SaveOutcome C B :=
  let updated := ops.applyDefaults updated
  let currentVersion := currentVersionOf ops m
  let m := match m.cfg with
    | some c => { m with cfg := some (ops.setVersion 0 c) }
    | none => m
  let updated := ops.setVersion 0 updated
  if m.cfg = some updated then
    ⟨false, none, { m with cfg := m.cfg.map (ops.setVersion currentVersion) },
      updated, disk⟩
  else
    let updated := ops.setVersion (currentVersion + 1) updated
    let w := writeToDisk codec wenv m disk updated
    match w.error with
    | some e => ⟨false, some e, w.mgr, updated, w.disk⟩
    | none => ⟨true, none, { w.mgr with cfg := some updated }, updated, w.disk⟩

/-- Embedding of `Manager.hasChangedOnDisk` (defined in the source but never
called): re-stat the file and compare size and modification time against the
remembered `os.FileInfo`; a stat failure reports "unchanged". -/
def hasChangedOnDisk (statResult : Except String FileInfo) (fi : FileInfo) : Bool :=
  match statResult with
  | .error _ => false
  | .ok next => next.size ≠ fi.size || next.modTime ≠ fi.modTime

/-- Result of servicing one delta in `processUpdates`: the error delivered on
the delta's response channel, the manager state, the disk contents, and the
configuration published on `nextCfgCh` (if any). -/
structure DeltaOutcome (C B : Type) where
  reportedError : Option Err
  mgr : Manager C
  disk : Option B
  published : Option C
deriving DecidableEq, Repr

/-- Embedding of the `delta := <-m.deltasCh` branch of
`Manager.processUpdates`: `updated, err := m.copy(m.cfg)` followed
immediately by `err = delta.deltaFn(updated)` — the copy's error is
overwritten without being inspected, so the delta function always runs on
the copy result (`copyResult.1`), complete or not.  A delta error is sent
back and nothing else happens; otherwise `saveToDiskAndUpdate` runs, its
error is sent back, and on a changed commit the new authoritative config is
published. -/
def processDelta {C B : Type} [DecidableEq C] (ops : ConfigOps C)
    (codec : Codec C B) (wenv : WriteEnv) (copyResult : C × Option Err)
    (deltaFn : C → Except Err C) (m : Manager C) (disk : Option B) :
    DeltaOutcome C B :=
  let updated := copyResult.1
  match deltaFn updated with
  | .error e => ⟨some e, m, disk, none⟩
  | .ok updated =>
    let s := saveToDiskAndUpdate ops codec wenv m disk updated
    match s.error with
    | some e => ⟨some e, s.mgr, s.disk, none⟩
    | none => ⟨none, s.mgr, s.disk, if s.changed then s.mgr.cfg else none⟩

/-- Result of the load-or-save sequence of `Manager.Start`: the returned
error, the manager state, the disk contents, and the first configuration the
background goroutine publishes on `nextCfgCh` (when `Start` succeeds). -/
structure StartOutcome (C B : Type) where
  error : Option Err
  mgr : Manager C
  disk : Option B
  published : Option C
deriving DecidableEq, Repr

/-- Embedding of the load-or-save sequence of `Manager.Start` (after field
validation), starting from the zero-valued manager (`cfg = nil`,
`fileInfo = nil`): attempt `loadFromDisk`; on failure build a fresh
`EmptyConfig()`, apply defaults, and `saveToDiskAndUpdate` it; on success
deep-copy the loaded config and re-save it, wrapping any copy/save error.
On overall success the goroutine first publishes `m.cfg`. -/
def start {C B : Type} [DecidableEq C] (ops : ConfigOps C) (codec : Codec C B)
    (emptyConfig : C) (renv : ReloadEnv B) (wenv : WriteEnv)
    (copyResult : C × Option Err) (disk : Option B) : StartOutcome C B :=
  let m0 : Manager C := ⟨none, none⟩
  let r := reloadFromDisk ops codec renv m0 disk
  match r.error with
  | some _ =>
    let cfg := ops.applyDefaults emptyConfig
    let s := saveToDiskAndUpdate ops codec wenv r.mgr r.disk cfg
    match s.error with
    | some e => ⟨some e, s.mgr, s.disk, none⟩
    | none => ⟨none, s.mgr, s.disk, s.mgr.cfg⟩
  | none =>
    match copyResult.2 with
    | some e => ⟨some (.initialUpdate e), r.mgr, r.disk, none⟩
    | none =>
      let s := saveToDiskAndUpdate ops codec wenv r.mgr r.disk copyResult.1
      match s.error with
      | some e => ⟨some (.initialUpdate e), s.mgr, s.disk, none⟩
      | none => ⟨none, s.mgr, s.disk, s.mgr.cfg⟩

/-! ## A concrete configuration type for witnesses and counterexamples

Mirrors the repository's own `TestCfg` (`Version`, nested `S` and `I`, with
`ApplyDefaults` setting `I` to 55 when zero). -/

/-- Concrete configuration mirroring the repository's `TestCfg`. -/
structure TestCfg where
  version : Int
  s : String
  i : Int
deriving DecidableEq, Repr

/-- Operations for `TestCfg`, mirroring its Go methods. -/
def testOps : ConfigOps TestCfg where
  getVersion c := c.version
  setVersion v c := { c with version := v }
  applyDefaults c := if c.i = 0 then { c with i := 55 } else c

/-- The operations of `TestCfg` satisfy the version get/set laws. -/
theorem testOps_laws : ConfigLaws testOps :=
  ⟨fun _ _ => rfl, fun _ _ _ => rfl, fun _ => rfl⟩

/-- A trivial codec for witnesses: bytes are the configuration itself. -/
def testCodec : Codec TestCfg TestCfg where
  marshal c := .ok c
  unmarshal b := .ok b

/-! ## Concrete fixtures for witnesses and counterexamples -/

/-- Authoritative configuration at version 3. -/
def cfgA : TestCfg := ⟨3, "a", 55⟩

/-- Foreign on-disk configuration at version 5. -/
def cfgB : TestCfg := ⟨5, "b", 55⟩

/-- Remembered file info from the last write. -/
def fiOld : FileInfo := ⟨"f", 10, 5, 1⟩

/-- File info returned by a later stat (fresh allocation). -/
def fiNew : FileInfo := ⟨"f", 20, 9, 2⟩

/-- File info returned by the stat after a write. -/
def fiW : FileInfo := ⟨"f", 30, 11, 3⟩

/-- A manager holding `cfgA` with remembered file info `fiOld`. -/
def mA : Manager TestCfg := ⟨some cfgA, some fiOld⟩

/-- A write environment in which writing succeeds. -/
def wOk : WriteEnv := ⟨none, .ok fiW⟩

/-- A write environment in which `ioutil.WriteFile` fails. -/
def wFail : WriteEnv := ⟨some "disk full", .ok fiW⟩

/-! ## Helper lemmas -/

/-- A successful `writeToDisk` call marshalled the config, put exactly those
bytes on disk, and recorded the fresh post-write stat as the fingerprint. -/
theorem writeToDisk_ok {C B : Type} (codec : Codec C B) (env : WriteEnv)
    (m : Manager C) (disk : Option B) (cfg : C)
    (h : (writeToDisk codec env m disk cfg).error = none) :
    ∃ wb, codec.marshal cfg = .ok wb ∧
      (writeToDisk codec env m disk cfg).disk = some wb ∧
      ∃ fi, env.statAfter = .ok fi ∧
        (writeToDisk codec env m disk cfg).mgr = { m with fileInfo := some fi } := by
  unfold writeToDisk at *
  rcases hm : codec.marshal cfg with msg | wb <;> simp [hm] at h ⊢
  rcases hw : env.writeResult with _ | msg <;> simp [hw] at h ⊢
  rcases hs : env.statAfter with msg | fi <;> simp [hs] at h ⊢

/-- When `reloadFromDisk` runs with no authoritative configuration in memory
and returns an error, the manager state and the disk are untouched. -/
theorem reload_nil_cfg_error_frame {C B : Type} [DecidableEq C]
    (ops : ConfigOps C) (codec : Codec C B) (env : ReloadEnv B)
    (m : Manager C) (disk : Option B) (hnone : m.cfg = none)
    (hfail : (reloadFromDisk ops codec env m disk).error ≠ none) :
    (reloadFromDisk ops codec env m disk).mgr = m ∧
    (reloadFromDisk ops codec env m disk).disk = disk := by
  rcases hs : env.statResult with msg | fi
  · simp [reloadFromDisk, hs]
  · by_cases hfi : m.fileInfo = some fi
    · simp [reloadFromDisk, hs, hfi]
    · rcases hr : env.readResult with msg | bs
      · simp [reloadFromDisk, hs, hfi, hr]
      · rcases hd : codec.unmarshal bs with msg | cfg
        · simp [reloadFromDisk, hs, hfi, hr, hd]
        · simp [reloadFromDisk, hs, hfi, hr, hd, hnone] at hfail

/-- Unfolding of `saveToDiskAndUpdate` when there is no authoritative
configuration: the comparison with `nil` never succeeds, so the candidate is
always stamped with version `0 + 1` and written. -/
theorem save_nil_cfg_spec {C B : Type} [DecidableEq C] (ops : ConfigOps C)
    (codec : Codec C B) (wenv : WriteEnv) (m : Manager C) (disk : Option B)
    (updated : C) (hcfg : m.cfg = none) :
    saveToDiskAndUpdate ops codec wenv m disk updated =
      (let upd := ops.setVersion (0 + 1) (ops.setVersion 0 (ops.applyDefaults updated))
       let w := writeToDisk codec wenv m disk upd
       match w.error with
       | some e => ⟨false, some e, w.mgr, upd, w.disk⟩
       | none => ⟨true, none, { w.mgr with cfg := some upd }, upd, w.disk⟩) := by
  simp [saveToDiskAndUpdate, currentVersionOf, hcfg]

/-- Unfolding of `saveToDiskAndUpdate` when an authoritative configuration
`mc` is present: the authoritative version is zeroed for the comparison; in
the equal branch it is restored (the candidate's is not); in the differ
branch the candidate is stamped with the incremented version and written,
and on a write error the authoritative config is left with version 0. -/
theorem save_some_cfg_spec {C B : Type} [DecidableEq C] (ops : ConfigOps C)
    (codec : Codec C B) (wenv : WriteEnv) (m : Manager C) (disk : Option B)
    (updated : C) (mc : C) (hcfg : m.cfg = some mc) :
    saveToDiskAndUpdate ops codec wenv m disk updated =
      (let upd := ops.setVersion 0 (ops.applyDefaults updated)
       let cv := ops.getVersion mc
       let m2 : Manager C := { m with cfg := some (ops.setVersion 0 mc) }
       if ops.setVersion 0 mc = upd then
         ⟨false, none, { m with cfg := some (ops.setVersion cv (ops.setVersion 0 mc)) },
           upd, disk⟩
       else
         let upd2 := ops.setVersion (cv + 1) upd
         let w := writeToDisk codec wenv m2 disk upd2
         match w.error with
         | some e => ⟨false, some e, w.mgr, upd2, w.disk⟩
         | none => ⟨true, none, { w.mgr with cfg := some upd2 }, upd2, w.disk⟩) := by
  simp [saveToDiskAndUpdate, currentVersionOf, hcfg]

/-- A `writeToDisk` call never changes the authoritative configuration,
whatever its outcome — it only ever touches `m.fileInfo`. -/
theorem writeToDisk_mgr_cfg {C B : Type} (codec : Codec C B) (env : WriteEnv)
    (m : Manager C) (disk : Option B) (cfg : C) :
    (writeToDisk codec env m disk cfg).mgr.cfg = m.cfg := by
  rcases h1 : codec.marshal cfg with msg | wb
  · simp [writeToDisk, h1]
  · rcases h2 : env.writeResult with _ | msg
    · rcases h3 : env.statAfter with msg | fi
      · simp [writeToDisk, h1, h2, h3]
      · simp [writeToDisk, h1, h2, h3]
    · simp [writeToDisk, h1, h2]

/-- When `ioutil.WriteFile` fails, `writeToDisk` leaves the disk contents
untouched. -/
theorem writeToDisk_fail_disk {C B : Type} (codec : Codec C B) (env : WriteEnv)
    (m : Manager C) (disk : Option B) (cfg : C) (h : env.writeResult ≠ none) :
    (writeToDisk codec env m disk cfg).disk = disk := by
  rcases h1 : codec.marshal cfg with msg | wb
  · simp [writeToDisk, h1]
  · rcases h2 : env.writeResult with _ | msg
    · exact absurd h2 h
    · simp [writeToDisk, h1, h2]

/-! ## Claim theorems -/

/-- C1: for every disk load in which an authoritative configuration already
exists in memory and the decoded configuration's version differs from the
authoritative version, the load is rejected: the in-memory authoritative
configuration is written back to disk (its marshalled bytes replace the disk
contents), the load returns a version-mismatch error naming the expected
(in-memory) and found (on-disk) versions, and the authoritative
configuration in memory is not replaced. -/
theorem reload_version_mismatch_rejects {C B : Type} [DecidableEq C]
    (ops : ConfigOps C) (codec : Codec C B) (env : ReloadEnv B)
    (m : Manager C) (disk : Option B) (mc cfg : C) (fi fi2 : FileInfo)
    (bs wb : B)
    (hcfg : m.cfg = some mc)
    (hstat : env.statResult = .ok fi)
    (hfi : m.fileInfo ≠ some fi)
    (hread : env.readResult = .ok bs)
    (hdec : codec.unmarshal bs = .ok cfg)
    (hver : ops.getVersion mc ≠ ops.getVersion cfg)
    (hmar : codec.marshal mc = .ok wb)
    (hw : env.write.writeResult = none)
    (hsa : env.write.statAfter = .ok fi2) :
    (reloadFromDisk ops codec env m disk).changed = false ∧
    (reloadFromDisk ops codec env m disk).error =
      some (.versionMismatch (ops.getVersion mc) (ops.getVersion cfg)) ∧
    (reloadFromDisk ops codec env m disk).mgr.cfg = some mc ∧
    (reloadFromDisk ops codec env m disk).disk = some wb := by
  simp [reloadFromDisk, writeToDisk, hcfg, hstat, hfi, hread, hdec, hver,
    hmar, hw, hsa]

/-- Concrete reload environment for C1's witness: stat finds a changed file
whose bytes decode to the foreign version-5 configuration, and the restoring
write succeeds. -/
def renvMismatchOk : ReloadEnv TestCfg := ⟨.ok fiNew, .ok cfgB, wOk⟩

/-- C1 witness: version 3 in memory, version 5 on disk; the load is rejected
with a mismatch error naming 3 and 5, memory keeps version 3, and the disk
is restored to the in-memory content. -/
theorem reload_version_mismatch_rejects_witness :
    (reloadFromDisk testOps testCodec renvMismatchOk mA (some cfgB)).changed = false ∧
    (reloadFromDisk testOps testCodec renvMismatchOk mA (some cfgB)).error =
      some (.versionMismatch 3 5) ∧
    (reloadFromDisk testOps testCodec renvMismatchOk mA (some cfgB)).mgr.cfg = some cfgA ∧
    (reloadFromDisk testOps testCodec renvMismatchOk mA (some cfgB)).disk = some cfgA :=
  reload_version_mismatch_rejects testOps testCodec renvMismatchOk mA (some cfgB)
    cfgA cfgB fiNew fiW cfgB cfgA rfl rfl (by decide) rfl rfl (by decide) rfl rfl rfl

/-- C5: a delta function that returns an error has exactly that error
reported back to the `Update` caller; the authoritative configuration and
the disk are untouched and nothing is published. -/
theorem update_delta_error_returned {C B : Type} [DecidableEq C]
    (ops : ConfigOps C) (codec : Codec C B) (wenv : WriteEnv)
    (copyResult : C × Option Err) (deltaFn : C → Except Err C)
    (m : Manager C) (disk : Option B) (e : Err)
    (h : deltaFn copyResult.1 = .error e) :
    (processDelta ops codec wenv copyResult deltaFn m disk).reportedError = some e ∧
    (processDelta ops codec wenv copyResult deltaFn m disk).mgr = m ∧
    (processDelta ops codec wenv copyResult deltaFn m disk).disk = disk ∧
    (processDelta ops codec wenv copyResult deltaFn m disk).published = none := by
  simp [processDelta, h]

/-- C5 witness: a delta that fails with a concrete error leaves the concrete
manager untouched and reports exactly that error. -/
theorem update_delta_error_returned_witness :
    (processDelta testOps testCodec wOk (cfgA, none)
        (fun _ => .error (.deltaFail "boom")) mA (some cfgA)).reportedError =
      some (.deltaFail "boom") ∧
    (processDelta testOps testCodec wOk (cfgA, none)
        (fun _ => .error (.deltaFail "boom")) mA (some cfgA)).mgr = mA ∧
    (processDelta testOps testCodec wOk (cfgA, none)
        (fun _ => .error (.deltaFail "boom")) mA (some cfgA)).disk = some cfgA ∧
    (processDelta testOps testCodec wOk (cfgA, none)
        (fun _ => .error (.deltaFail "boom")) mA (some cfgA)).published = none :=
  update_delta_error_returned testOps testCodec wOk (cfgA, none)
    (fun _ => .error (.deltaFail "boom")) mA (some cfgA) (.deltaFail "boom") rfl

/-- C6: a disk load that passes version reconciliation and whose decoded
configuration is deep-structurally equal to the current authoritative
configuration reports no change and no error and leaves the authoritative
configuration, the remembered fingerprint, and the disk untouched. -/
theorem reload_deep_equal_noop {C B : Type} [DecidableEq C]
    (ops : ConfigOps C) (codec : Codec C B) (env : ReloadEnv B)
    (m : Manager C) (disk : Option B) (mc : C) (fi : FileInfo) (bs : B)
    (hcfg : m.cfg = some mc)
    (hstat : env.statResult = .ok fi)
    (hfi : m.fileInfo ≠ some fi)
    (hread : env.readResult = .ok bs)
    (hdec : codec.unmarshal bs = .ok mc) :
    (reloadFromDisk ops codec env m disk).changed = false ∧
    (reloadFromDisk ops codec env m disk).error = none ∧
    (reloadFromDisk ops codec env m disk).mgr = m ∧
    (reloadFromDisk ops codec env m disk).disk = disk := by
  simp [reloadFromDisk, hcfg, hstat, hfi, hread, hdec]

/-- Concrete reload environment for C6's witness: the file re-stats with a
fresh file info but its bytes decode to exactly the in-memory config. -/
def renvSame : ReloadEnv TestCfg := ⟨.ok fiNew, .ok cfgA, wOk⟩

/-- C6 witness: re-reading a file whose contents decode to the authoritative
configuration reports no change, no error, and leaves everything in place. -/
theorem reload_deep_equal_noop_witness :
    (reloadFromDisk testOps testCodec renvSame mA (some cfgA)).changed = false ∧
    (reloadFromDisk testOps testCodec renvSame mA (some cfgA)).error = none ∧
    (reloadFromDisk testOps testCodec renvSame mA (some cfgA)).mgr = mA ∧
    (reloadFromDisk testOps testCodec renvSame mA (some cfgA)).disk = some cfgA :=
  reload_deep_equal_noop testOps testCodec renvSame mA (some cfgA) cfgA fiNew cfgA
    rfl rfl (by decide) rfl rfl

/-- C10: when version reconciliation rejects a disk load and re-writes the
in-memory configuration to disk, the error result of that overwrite is
ignored: whatever the write environment, the load returns the
version-mismatch error (never a write error) and keeps the in-memory
configuration; and when the overwrite's file write fails, the disk still
holds the foreign content. -/
theorem reload_mismatch_ignores_write_error {C B : Type} [DecidableEq C]
    (ops : ConfigOps C) (codec : Codec C B) (env : ReloadEnv B)
    (m : Manager C) (disk : Option B) (mc cfg : C) (fi : FileInfo) (bs : B)
    (hcfg : m.cfg = some mc)
    (hstat : env.statResult = .ok fi)
    (hfi : m.fileInfo ≠ some fi)
    (hread : env.readResult = .ok bs)
    (hdec : codec.unmarshal bs = .ok cfg)
    (hver : ops.getVersion mc ≠ ops.getVersion cfg) :
    (reloadFromDisk ops codec env m disk).error =
      some (.versionMismatch (ops.getVersion mc) (ops.getVersion cfg)) ∧
    (reloadFromDisk ops codec env m disk).changed = false ∧
    (reloadFromDisk ops codec env m disk).mgr.cfg = some mc ∧
    (env.write.writeResult ≠ none →
      (reloadFromDisk ops codec env m disk).disk = disk) := by
  have hmgr := writeToDisk_mgr_cfg codec env.write m disk mc
  constructor
  · simp [reloadFromDisk, hcfg, hstat, hfi, hread, hdec, hver]
  constructor
  · simp [reloadFromDisk, hcfg, hstat, hfi, hread, hdec, hver]
  constructor
  · simp only [reloadFromDisk, hcfg, hstat, hfi, hread, hdec]
    simp [hver, hmgr, hcfg]
  · intro hwf
    have hdisk := writeToDisk_fail_disk codec env.write m disk mc hwf
    simp only [reloadFromDisk, hcfg, hstat, hfi, hread, hdec]
    simp [hver, hdisk]

/-- Concrete reload environment for C10's witness: the foreign version-5
content is on disk and the restoring write fails. -/
def renvMismatchFail : ReloadEnv TestCfg := ⟨.ok fiNew, .ok cfgB, wFail⟩

/-- C10 witness: with a failing restore write, the load still reports the
version-mismatch error (not the write error), keeps version 3 in memory,
and the foreign content remains on disk. -/
theorem reload_mismatch_ignores_write_error_witness :
    (reloadFromDisk testOps testCodec renvMismatchFail mA (some cfgB)).error =
      some (.versionMismatch 3 5) ∧
    (reloadFromDisk testOps testCodec renvMismatchFail mA (some cfgB)).changed = false ∧
    (reloadFromDisk testOps testCodec renvMismatchFail mA (some cfgB)).mgr.cfg = some cfgA ∧
    (renvMismatchFail.write.writeResult ≠ none →
      (reloadFromDisk testOps testCodec renvMismatchFail mA (some cfgB)).disk = some cfgB) :=
  reload_mismatch_ignores_write_error testOps testCodec renvMismatchFail mA
    (some cfgB) cfgA cfgB fiNew cfgB rfl rfl (by decide) rfl rfl (by decide)

/-- Candidate with content "b" and version 0, used as a differing save
candidate. -/
def cfgD : TestCfg := ⟨0, "b", 55⟩

/-- Candidate with the same content as `cfgA` but version 7, used as a no-op
save candidate. -/
def cfgC : TestCfg := ⟨7, "a", 55⟩

/-- C2 (code bug): when writing a changed candidate to disk fails, the
write error is returned to the caller, but the authoritative configuration
is NOT left unchanged: its version, zeroed for the structural comparison, is
never restored on this path.  Before this save the authoritative version is
3; after the failed save the authoritative configuration is `⟨0, "a", 55⟩` —
its version field is 0. -/
theorem save_write_failure_zeroes_authoritative_version :
    mA.cfg = some cfgA ∧ testOps.getVersion cfgA = 3 ∧
    (saveToDiskAndUpdate testOps testCodec wFail mA (some cfgA) cfgD).error =
      some (.write "disk full") ∧
    (saveToDiskAndUpdate testOps testCodec wFail mA (some cfgA) cfgD).mgr.cfg =
      some ⟨0, "a", 55⟩ ∧
    (saveToDiskAndUpdate testOps testCodec wFail mA (some cfgA) cfgD).mgr.cfg.map
      testOps.getVersion = some 0 := by
  decide

/-- C3 counterexample: a no-op save (candidate `cfgC`, version 7, whose
content equals the authoritative `cfgA` up to version) takes the unchanged
branch, but the candidate's version is NOT restored to its prior value 7 —
the candidate is left with version 0. -/
theorem save_noop_candidate_version_not_restored :
    (saveToDiskAndUpdate testOps testCodec wOk mA (some cfgA) cfgC).changed = false ∧
    (saveToDiskAndUpdate testOps testCodec wOk mA (some cfgA) cfgC).error = none ∧
    testOps.getVersion cfgC = 7 ∧
    testOps.getVersion
      (saveToDiskAndUpdate testOps testCodec wOk mA (some cfgA) cfgC).candidate = 0 := by
  decide

/-- C3 (amended): for every save-and-update whose candidate, after defaults
are applied and with both versions temporarily zeroed, is structurally equal
to the current authoritative configuration: nothing is written to disk, the
authoritative configuration is left exactly as before (in particular its
version is restored to its prior value), the version is not incremented, and
the save reports no change — but the candidate is left with its version
zeroed rather than restored. -/
theorem save_noop_restores_authoritative {C B : Type} [DecidableEq C]
    (ops : ConfigOps C) (laws : ConfigLaws ops) (codec : Codec C B)
    (wenv : WriteEnv) (m : Manager C) (disk : Option B) (updated mc : C)
    (hcfg : m.cfg = some mc)
    (heq : ops.setVersion 0 mc = ops.setVersion 0 (ops.applyDefaults updated)) :
    (saveToDiskAndUpdate ops codec wenv m disk updated).changed = false ∧
    (saveToDiskAndUpdate ops codec wenv m disk updated).error = none ∧
    (saveToDiskAndUpdate ops codec wenv m disk updated).mgr = m ∧
    (saveToDiskAndUpdate ops codec wenv m disk updated).disk = disk ∧
    (saveToDiskAndUpdate ops codec wenv m disk updated).candidate =
      ops.setVersion 0 (ops.applyDefaults updated) := by
  have h1 : ops.setVersion (ops.getVersion mc) (ops.setVersion 0 mc) = mc := by
    rw [laws.set_set, laws.set_get]
  rw [save_some_cfg_spec ops codec wenv m disk updated mc hcfg]
  simp only [← heq, eq_self_iff_true, if_true, h1, ← hcfg]
  exact ⟨trivial, trivial, trivial, trivial, trivial⟩

/-- C3 (amended) witness: saving the version-7 candidate `cfgC` against the
version-3 authoritative `cfgA` is a pure no-op on the manager and disk, and
leaves the candidate at version 0. -/
theorem save_noop_restores_authoritative_witness :
    (saveToDiskAndUpdate testOps testCodec wOk mA (some cfgB) cfgC).changed = false ∧
    (saveToDiskAndUpdate testOps testCodec wOk mA (some cfgB) cfgC).error = none ∧
    (saveToDiskAndUpdate testOps testCodec wOk mA (some cfgB) cfgC).mgr = mA ∧
    (saveToDiskAndUpdate testOps testCodec wOk mA (some cfgB) cfgC).disk = some cfgB ∧
    (saveToDiskAndUpdate testOps testCodec wOk mA (some cfgB) cfgC).candidate =
      testOps.setVersion 0 (testOps.applyDefaults cfgC) :=
  save_noop_restores_authoritative testOps testOps_laws testCodec wOk mA
    (some cfgB) cfgC cfgA rfl (by decide)

/-- C7 (code bug): with the remembered file info and the fresh stat result
agreeing on size and modification time — so the size+mtime fingerprint
comparison `hasChangedOnDisk` reports "unchanged" — but being distinct stat
allocations (as two `os.Stat` calls always are), `reloadFromDisk` does not
short-circuit: it proceeds to read the file, and here the injected read
failure becomes its result.  The short-circuit compares `m.fileInfo ==
fileInfo` by Go interface identity, and `hasChangedOnDisk` is never
called. -/
theorem reload_equal_fingerprint_still_reads :
    hasChangedOnDisk (.ok ⟨"f", 10, 5, 2⟩) fiOld = false ∧
    (reloadFromDisk testOps testCodec
        ⟨.ok ⟨"f", 10, 5, 2⟩, .error "io failure", wOk⟩
        ⟨some cfgA, some fiOld⟩ (some cfgA)).error = some (.read "io failure") := by
  decide

/-- Differing save candidate: content "d", version 0. -/
def cfgU : TestCfg := ⟨0, "d", 55⟩

/-- The committed form of `cfgU` against authoritative version 3: stamped
with version 4. -/
def cfgU4 : TestCfg := ⟨4, "d", 55⟩

/-- C4: a save-and-update whose candidate differs (ignoring version) from
the current authoritative configuration and whose disk write succeeds stamps
the candidate with exactly the previous authoritative version plus 1
(version 0 standing in for a missing authoritative configuration), makes the
candidate authoritative, records the fresh fingerprint, and reports a
change; the authoritative version strictly increases. -/
theorem save_differs_commits_incremented {C B : Type} [DecidableEq C]
    (ops : ConfigOps C) (laws : ConfigLaws ops) (codec : Codec C B)
    (wenv : WriteEnv) (m : Manager C) (disk : Option B) (updated : C)
    (wb : B) (fi2 : FileInfo)
    (hne : m.cfg.map (ops.setVersion 0) ≠
      some (ops.setVersion 0 (ops.applyDefaults updated)))
    (hmar : codec.marshal (ops.setVersion (currentVersionOf ops m + 1)
      (ops.setVersion 0 (ops.applyDefaults updated))) = .ok wb)
    (hw : wenv.writeResult = none)
    (hsa : wenv.statAfter = .ok fi2) :
    (saveToDiskAndUpdate ops codec wenv m disk updated).changed = true ∧
    (saveToDiskAndUpdate ops codec wenv m disk updated).error = none ∧
    (saveToDiskAndUpdate ops codec wenv m disk updated).mgr.cfg =
      some (saveToDiskAndUpdate ops codec wenv m disk updated).candidate ∧
    ops.getVersion (saveToDiskAndUpdate ops codec wenv m disk updated).candidate =
      currentVersionOf ops m + 1 ∧
    currentVersionOf ops (saveToDiskAndUpdate ops codec wenv m disk updated).mgr =
      currentVersionOf ops m + 1 ∧
    currentVersionOf ops m <
      currentVersionOf ops (saveToDiskAndUpdate ops codec wenv m disk updated).mgr ∧
    (saveToDiskAndUpdate ops codec wenv m disk updated).disk = some wb ∧
    (saveToDiskAndUpdate ops codec wenv m disk updated).mgr.fileInfo = some fi2 := by
  rcases hcfg : m.cfg with _ | mc
  · have hcv : currentVersionOf ops m = 0 := by simp [currentVersionOf, hcfg]
    rw [hcv] at hmar ⊢
    simp only [zero_add] at hmar
    rw [save_nil_cfg_spec ops codec wenv m disk updated hcfg]
    simp [writeToDisk, hmar, hw, hsa, currentVersionOf, laws.get_set, zero_lt_one]
  · have hcv : currentVersionOf ops m = ops.getVersion mc := by
      simp [currentVersionOf, hcfg]
    rw [hcv] at hmar ⊢
    rw [hcfg] at hne
    simp at hne
    rw [save_some_cfg_spec ops codec wenv m disk updated mc hcfg]
    simp [hne, writeToDisk, hmar, hw, hsa, currentVersionOf, laws.get_set,
      lt_add_one]

/-- C4 witness: saving `cfgU` (content "d") against authoritative `cfgA`
(version 3) commits `cfgU4` (the same content at version 4), writes it to
disk, captures the fresh fingerprint, and reports a change. -/
theorem save_differs_commits_incremented_witness :
    (saveToDiskAndUpdate testOps testCodec wOk mA (some cfgA) cfgU).changed = true ∧
    (saveToDiskAndUpdate testOps testCodec wOk mA (some cfgA) cfgU).error = none ∧
    (saveToDiskAndUpdate testOps testCodec wOk mA (some cfgA) cfgU).mgr.cfg =
      some (saveToDiskAndUpdate testOps testCodec wOk mA (some cfgA) cfgU).candidate ∧
    testOps.getVersion
      (saveToDiskAndUpdate testOps testCodec wOk mA (some cfgA) cfgU).candidate =
      currentVersionOf testOps mA + 1 ∧
    currentVersionOf testOps
      (saveToDiskAndUpdate testOps testCodec wOk mA (some cfgA) cfgU).mgr =
      currentVersionOf testOps mA + 1 ∧
    currentVersionOf testOps mA <
      currentVersionOf testOps
        (saveToDiskAndUpdate testOps testCodec wOk mA (some cfgA) cfgU).mgr ∧
    (saveToDiskAndUpdate testOps testCodec wOk mA (some cfgA) cfgU).disk = some cfgU4 ∧
    (saveToDiskAndUpdate testOps testCodec wOk mA (some cfgA) cfgU).mgr.fileInfo =
      some fiW :=
  save_differs_commits_incremented testOps testOps_laws testCodec wOk mA
    (some cfgA) cfgU cfgU4 fiW (by decide) rfl rfl rfl

/-- A save that reports "changed" committed its candidate as the
authoritative configuration. -/
theorem save_changed_commits {C B : Type} [DecidableEq C] (ops : ConfigOps C)
    (codec : Codec C B) (wenv : WriteEnv) (m : Manager C) (disk : Option B)
    (updated : C)
    (h : (saveToDiskAndUpdate ops codec wenv m disk updated).changed = true) :
    (saveToDiskAndUpdate ops codec wenv m disk updated).mgr.cfg =
      some (saveToDiskAndUpdate ops codec wenv m disk updated).candidate := by
  rcases hcfg : m.cfg with _ | mc
  · rw [save_nil_cfg_spec ops codec wenv m disk updated hcfg] at h ⊢
    simp only [zero_add] at h ⊢
    rcases hw : (writeToDisk codec wenv m disk
        (ops.setVersion 1 (ops.setVersion 0 (ops.applyDefaults updated)))).error
        with _ | e
    · simp [hw]
    · simp [hw] at h
  · rw [save_some_cfg_spec ops codec wenv m disk updated mc hcfg] at h ⊢
    by_cases he : ops.setVersion 0 mc = ops.setVersion 0 (ops.applyDefaults updated)
    · simp [he] at h
    · simp only [he, if_false] at h ⊢
      rcases hw : (writeToDisk codec wenv
          { m with cfg := some (ops.setVersion 0 mc) } disk
          (ops.setVersion (ops.getVersion mc + 1)
            (ops.setVersion 0 (ops.applyDefaults updated)))).error with _ | e
      · simp [hw]
      · simp [hw] at h

/-- C9: in the update loop's delta branch the deep-copy error is discarded
(`err` is immediately overwritten by the delta function's result), so the
branch behaves identically whether or not the copy reported an error: the
delta function is invoked on the copy result either way, and — when the
delta succeeds and the subsequent save reports a change with no error — the
configuration derived from the possibly incomplete copy is committed as
authoritative. -/
theorem delta_copy_error_discarded {C B : Type} [DecidableEq C]
    (ops : ConfigOps C) (codec : Codec C B) (wenv : WriteEnv) (c u : C)
    (e : Err) (deltaFn : C → Except Err C) (m : Manager C) (disk : Option B)
    (hd : deltaFn c = .ok u)
    (herr : (saveToDiskAndUpdate ops codec wenv m disk u).error = none)
    (hch : (saveToDiskAndUpdate ops codec wenv m disk u).changed = true) :
    processDelta ops codec wenv (c, some e) deltaFn m disk =
      processDelta ops codec wenv (c, none) deltaFn m disk ∧
    (processDelta ops codec wenv (c, some e) deltaFn m disk).mgr.cfg =
      some (saveToDiskAndUpdate ops codec wenv m disk u).candidate := by
  constructor
  · rfl
  · have hc := save_changed_commits ops codec wenv m disk u hch
    simp [processDelta, hd, herr, hc]

/-- C9 witness: a copy that reports a partial-copy error behaves exactly as
an error-free copy; the delta runs on the copy result and its outcome
`cfgU4` is committed as the authoritative configuration. -/
theorem delta_copy_error_discarded_witness :
    processDelta testOps testCodec wOk (cfgA, some (.copyFail "partial"))
        (fun c0 => .ok { c0 with s := "d" }) mA (some cfgA) =
      processDelta testOps testCodec wOk (cfgA, none)
        (fun c0 => .ok { c0 with s := "d" }) mA (some cfgA) ∧
    (processDelta testOps testCodec wOk (cfgA, some (.copyFail "partial"))
        (fun c0 => .ok { c0 with s := "d" }) mA (some cfgA)).mgr.cfg =
      some (saveToDiskAndUpdate testOps testCodec wOk mA (some cfgA)
        ⟨3, "d", 55⟩).candidate :=
  delta_copy_error_discarded testOps testCodec wOk cfgA ⟨3, "d", 55⟩
    (.copyFail "partial") (fun c0 => .ok { c0 with s := "d" }) mA (some cfgA)
    rfl (by decide) (by decide)

/-- With no authoritative configuration in memory, the save's candidate is
the defaulted input stamped with version `0 + 1`, whatever the write
outcome. -/
theorem save_nil_cfg_candidate {C B : Type} [DecidableEq C] (ops : ConfigOps C)
    (codec : Codec C B) (wenv : WriteEnv) (m : Manager C) (disk : Option B)
    (updated : C) (hcfg : m.cfg = none) :
    (saveToDiskAndUpdate ops codec wenv m disk updated).candidate =
      ops.setVersion (0 + 1) (ops.setVersion 0 (ops.applyDefaults updated)) := by
  rw [save_nil_cfg_spec ops codec wenv m disk updated hcfg]
  simp only [zero_add]
  rcases hw : (writeToDisk codec wenv m disk
      (ops.setVersion 1 (ops.setVersion 0 (ops.applyDefaults updated)))).error with _ | e
  · simp [hw]
  · simp [hw]

/-- A successful save with no authoritative configuration in memory commits
the candidate: it reports a change, the candidate becomes authoritative, and
its marshalled bytes are the new disk contents. -/
theorem save_nil_cfg_ok {C B : Type} [DecidableEq C] (ops : ConfigOps C)
    (codec : Codec C B) (wenv : WriteEnv) (m : Manager C) (disk : Option B)
    (updated : C) (hcfg : m.cfg = none)
    (hok : (saveToDiskAndUpdate ops codec wenv m disk updated).error = none) :
    (saveToDiskAndUpdate ops codec wenv m disk updated).changed = true ∧
    (saveToDiskAndUpdate ops codec wenv m disk updated).mgr.cfg =
      some (saveToDiskAndUpdate ops codec wenv m disk updated).candidate ∧
    ∃ wb, codec.marshal
        (saveToDiskAndUpdate ops codec wenv m disk updated).candidate = .ok wb ∧
      (saveToDiskAndUpdate ops codec wenv m disk updated).disk = some wb := by
  rw [save_nil_cfg_spec ops codec wenv m disk updated hcfg] at hok ⊢
  simp only [zero_add] at hok ⊢
  rcases hw : (writeToDisk codec wenv m disk
      (ops.setVersion 1 (ops.setVersion 0 (ops.applyDefaults updated)))).error with _ | e
  · obtain ⟨wb, hmar, hdisk, fi, hsa, hmgr⟩ := writeToDisk_ok codec wenv m disk _ hw
    simp only [hw]
    exact ⟨trivial, trivial, wb, hmar, hdisk⟩
  · simp [hw] at hok

/-- C8: when the initial disk load fails, `Start` does not fail for that
reason: a fresh configuration from the empty-config factory is defaulted and
saved; that save always stamps its candidate with version 1; `Start`'s
result is exactly the save's result, and when the save succeeds the
defaulted candidate becomes authoritative, its marshalled bytes are the disk
contents, and it is the first published configuration. -/
theorem start_load_failure_saves_default {C B : Type} [DecidableEq C]
    (ops : ConfigOps C) (laws : ConfigLaws ops) (codec : Codec C B)
    (emptyConfig : C) (renv : ReloadEnv B) (wenv : WriteEnv)
    (copyResult : C × Option Err) (disk : Option B)
    (hfail : (reloadFromDisk ops codec renv (⟨none, none⟩ : Manager C) disk).error ≠ none) :
    (start ops codec emptyConfig renv wenv copyResult disk).error =
      (saveToDiskAndUpdate ops codec wenv (⟨none, none⟩ : Manager C) disk
        (ops.applyDefaults emptyConfig)).error ∧
    ops.getVersion
      (saveToDiskAndUpdate ops codec wenv (⟨none, none⟩ : Manager C) disk
        (ops.applyDefaults emptyConfig)).candidate = 1 ∧
    ((saveToDiskAndUpdate ops codec wenv (⟨none, none⟩ : Manager C) disk
        (ops.applyDefaults emptyConfig)).error = none →
      (start ops codec emptyConfig renv wenv copyResult disk).mgr.cfg =
        some (saveToDiskAndUpdate ops codec wenv (⟨none, none⟩ : Manager C) disk
          (ops.applyDefaults emptyConfig)).candidate ∧
      (start ops codec emptyConfig renv wenv copyResult disk).published =
        some (saveToDiskAndUpdate ops codec wenv (⟨none, none⟩ : Manager C) disk
          (ops.applyDefaults emptyConfig)).candidate ∧
      ∃ wb, codec.marshal
          (saveToDiskAndUpdate ops codec wenv (⟨none, none⟩ : Manager C) disk
            (ops.applyDefaults emptyConfig)).candidate = .ok wb ∧
        (start ops codec emptyConfig renv wenv copyResult disk).disk = some wb) := by
  obtain ⟨hm, hd⟩ := reload_nil_cfg_error_frame ops codec renv ⟨none, none⟩ disk rfl hfail
  obtain ⟨e, he⟩ := Option.ne_none_iff_exists'.mp hfail
  have hver1 : ops.getVersion
      (saveToDiskAndUpdate ops codec wenv (⟨none, none⟩ : Manager C) disk
        (ops.applyDefaults emptyConfig)).candidate = 1 := by
    rw [save_nil_cfg_candidate ops codec wenv ⟨none, none⟩ disk _ rfl, laws.get_set]
    exact zero_add 1
  refine ⟨?_, hver1, ?_⟩
  · rcases hs : (saveToDiskAndUpdate ops codec wenv (⟨none, none⟩ : Manager C) disk
        (ops.applyDefaults emptyConfig)).error with _ | e2
    · simp [start, he, hm, hd, hs]
    · simp [start, he, hm, hd, hs]
  · intro hok
    obtain ⟨hch, hcommit, wb, hmar, hdisk⟩ :=
      save_nil_cfg_ok ops codec wenv ⟨none, none⟩ disk _ rfl hok
    exact ⟨by simp [start, he, hm, hd, hok, hcommit],
      by simp [start, he, hm, hd, hok, hcommit],
      wb, hmar, by simp [start, he, hm, hd, hok, hdisk]⟩

/-- Reload environment for C8's witness: the file does not exist, so the
initial stat (and read) fail. -/
def renvNoFile : ReloadEnv TestCfg := ⟨.error "no such file", .error "no such file", wOk⟩

/-- The zero-valued `TestCfg`, as produced by the `EmptyConfig` factory. -/
def emptyTestCfg : TestCfg := ⟨0, "", 0⟩

/-- C8 witness: starting against a missing file succeeds: the save stamps
the defaulted empty configuration with version 1, commits it as
authoritative, puts its marshalled bytes on disk, and publishes it first. -/
theorem start_load_failure_saves_default_witness :
    (start testOps testCodec emptyTestCfg renvNoFile wOk (emptyTestCfg, none) none).error =
      (saveToDiskAndUpdate testOps testCodec wOk (⟨none, none⟩ : Manager TestCfg) none
        (testOps.applyDefaults emptyTestCfg)).error ∧
    testOps.getVersion
      (saveToDiskAndUpdate testOps testCodec wOk (⟨none, none⟩ : Manager TestCfg) none
        (testOps.applyDefaults emptyTestCfg)).candidate = 1 ∧
    ((saveToDiskAndUpdate testOps testCodec wOk (⟨none, none⟩ : Manager TestCfg) none
        (testOps.applyDefaults emptyTestCfg)).error = none →
      (start testOps testCodec emptyTestCfg renvNoFile wOk
          (emptyTestCfg, none) none).mgr.cfg =
        some (saveToDiskAndUpdate testOps testCodec wOk (⟨none, none⟩ : Manager TestCfg)
          none (testOps.applyDefaults emptyTestCfg)).candidate ∧
      (start testOps testCodec emptyTestCfg renvNoFile wOk
          (emptyTestCfg, none) none).published =
        some (saveToDiskAndUpdate testOps testCodec wOk (⟨none, none⟩ : Manager TestCfg)
          none (testOps.applyDefaults emptyTestCfg)).candidate ∧
      ∃ wb, testCodec.marshal
          (saveToDiskAndUpdate testOps testCodec wOk (⟨none, none⟩ : Manager TestCfg)
            none (testOps.applyDefaults emptyTestCfg)).candidate = .ok wb ∧
        (start testOps testCodec emptyTestCfg renvNoFile wOk
          (emptyTestCfg, none) none).disk = some wb) :=
  start_load_failure_saves_default testOps testOps_laws testCodec emptyTestCfg
    renvNoFile wOk (emptyTestCfg, none) none (by decide)
